import Mathlib

/-!
Verification development for the bikemap.bcn trip-animation core.

The definitions below are shallow embeddings of the TypeScript sources:
JavaScript numbers are modelled as rationals (`ℚ`), `Date` values as
rational milliseconds since the epoch, `null`-able fields as `Option`,
rejected promises as `Except`, and JavaScript `Map` objects as
insertion-ordered association lists.  Parts of the worker (the trip
geometry/phase compiler and the per-frame interpolator) are not present in
the repository sources; those definitions are modelled from the
specification and marked as such in their doc comments.
-/

/-- Model of a JavaScript `Map` as an insertion-ordered association list:
`set` replaces the value in place when the key is already present and
appends otherwise, matching JS `Map.prototype.set` semantics. -/
def jsMapSet {α : Type} (m : List (String × α)) (k : String) (v : α) :
    List (String × α) :=
  if m.any (fun p => p.1 = k) then
    m.map (fun p => if p.1 = k then (k, v) else p)
  else
    m ++ [(k, v)]

/-- Model of `Array.from(map.values())`: values in insertion order. -/
def jsMapValues {α : Type} (m : List (String × α)) : List α :=
  m.map Prod.snd

/-- Keys of the map model, in insertion order. -/
def jsMapKeys {α : Type} (m : List (String × α)) : List String :=
  m.map Prod.fst

/-- Insert each entry of `l` (in order) into the map model, keyed by `key`.
This is the embedding of the `for (const trip of l) map.set(trip.id, trip)`
loops in `TripDataService.fetchBatch`. -/
def jsMapSetAll {α : Type} (key : α → String) (m : List (String × α))
    (l : List α) : List (String × α) :=
  l.foldl (fun acc t => jsMapSet acc (key t) t) m

/-- A raw trip row as returned by the server query layer
(`ServerTrip` in `apps/client/lib/trip-types.ts`); `startedAt`/`endedAt`
are `Date` values modelled as rational epoch milliseconds. -/
structure ServerTrip where
  id : String
  startStationId : String
  endStationId : String
  startedAt : ℚ
  endedAt : ℚ
  rideableType : String
  memberCasual : String
  startLat : ℚ
  startLng : ℚ
  endLat : Option ℚ
  endLng : Option ℚ
  routeGeometry : Option String
  routeDistance : Option ℚ
  routeDuration : Option ℚ
  deriving DecidableEq, Repr

/-- A raw trip in worker-transfer form (`RawTrip` in
`apps/client/lib/trip-types.ts`).  In the source the two date fields are
ISO strings produced by `Date.prototype.toISOString`; the encoding is
lossless, so they are modelled by the same rational epoch milliseconds. -/
structure RawTrip where
  id : String
  startStationId : String
  endStationId : String
  startedAtMs : ℚ
  endedAtMs : ℚ
  rideableType : String
  memberCasual : String
  startLat : ℚ
  startLng : ℚ
  endLat : Option ℚ
  endLng : Option ℚ
  routeGeometry : Option String
  routeDistance : Option ℚ
  routeDuration : Option ℚ
  deriving DecidableEq, Repr

/-- Embedding of `TripDataService.convertToRawTrips`: spread the record and
serialize the two dates. -/
def convertToRawTrip (t : ServerTrip) : RawTrip :=
  { id := t.id
    startStationId := t.startStationId
    endStationId := t.endStationId
    startedAtMs := t.startedAt
    endedAtMs := t.endedAt
    rideableType := t.rideableType
    memberCasual := t.memberCasual
    startLat := t.startLat
    startLng := t.startLng
    endLat := t.endLat
    endLng := t.endLng
    routeGeometry := t.routeGeometry
    routeDistance := t.routeDistance
    routeDuration := t.routeDuration }

/-- Embedding of `TripDataService.convertToRawTrips` on a whole array. -/
def convertToRawTrips (l : List ServerTrip) : List RawTrip :=
  l.map convertToRawTrip

/-- Batch duration in simulated seconds (`BATCH_SIZE_SECONDS` from
`@/lib/chunk-config`, consistent with `SIM_BATCH_SIZE_MS = 30 * 60 * 1000`
in `apps/client/lib/config.ts`). -/
def BATCH_SIZE_SECONDS : ℚ := 30 * 60

/-- Chunk duration in simulated seconds (`CHUNK_SIZE_SECONDS`, consistent
with `SIM_CHUNK_SIZE_MS = 60 * 1000` in `apps/client/lib/config.ts`). -/
def CHUNK_SIZE_SECONDS : ℚ := 60

/-- Configuration record of `TripDataService` (`TripDataServiceConfig`);
`animationStartDate` is modelled as epoch milliseconds. -/
structure TripDataServiceConfig where
  windowStartMs : ℚ
  animationStartDateMs : ℚ
  fadeDurationSimSeconds : ℚ

/-- A time window passed to the server query layer. -/
structure QueryWindow where
  fromMs : ℚ
  toMs : ℚ

/-- The window `[batchStartMs, batchEndMs)` computed by
`TripDataService.fetchBatch` for a batch index. -/
def ridesWindow (cfg : TripDataServiceConfig) (batchId : ℕ) : QueryWindow :=
  ⟨cfg.windowStartMs + batchId * BATCH_SIZE_SECONDS * 1000,
   cfg.windowStartMs + batchId * BATCH_SIZE_SECONDS * 1000 +
     BATCH_SIZE_SECONDS * 1000⟩

/-- The batch-0 overlap window `[animationStartDate, windowStart + one
chunk)` passed to `getTripsForChunk`. -/
def overlapWindow (cfg : TripDataServiceConfig) : QueryWindow :=
  ⟨cfg.animationStartDateMs, cfg.windowStartMs + CHUNK_SIZE_SECONDS * 1000⟩

/-- Embedding of `TripDataService.fetchBatch`.  The two server functions
`getRidesStartingIn` (aliased `getRidesInWindow`) and `getTripsForChunk`
are external collaborators ("return raw trip rows whose start time falls in
[from, to)") and are passed as parameters returning `Except`: a rejected
promise is `Except.error`.  For `batchId = 0` the overlap trips are
inserted into the dedupe map first and the in-window trips second, exactly
as in the source. -/
def fetchBatch (getRidesInWindow : QueryWindow → Except String (List ServerTrip))
    (getTripsForChunk : QueryWindow → Except String (List ServerTrip))
    (cfg : TripDataServiceConfig) (batchId : ℕ) :
    Except String (List RawTrip) := do
  let data ← getRidesInWindow (ridesWindow cfg batchId)
  if batchId = 0 then
    let overlapData ← getTripsForChunk (overlapWindow cfg)
    let tripMap := jsMapSetAll ServerTrip.id (jsMapSetAll ServerTrip.id [] overlapData) data
    pure (convertToRawTrips (jsMapValues tripMap))
  else
    pure (convertToRawTrips data)

/-- Instrumented variant of `fetchBatch` that additionally counts how many
times each server query is invoked; used to state the no-retry property.
Its result component coincides with `fetchBatch` (proved below). -/
def fetchBatchCounting
    (getRidesInWindow : QueryWindow → Except String (List ServerTrip))
    (getTripsForChunk : QueryWindow → Except String (List ServerTrip))
    (cfg : TripDataServiceConfig) (batchId : ℕ) :
    Except String (List RawTrip) × ℕ × ℕ :=
  match getRidesInWindow (ridesWindow cfg batchId) with
  | .error e => (.error e, 1, 0)
  | .ok data =>
    if batchId = 0 then
      match getTripsForChunk (overlapWindow cfg) with
      | .error e => (.error e, 1, 1)
      | .ok overlapData =>
        let tripMap := jsMapSetAll ServerTrip.id (jsMapSetAll ServerTrip.id [] overlapData) data
        (.ok (convertToRawTrips (jsMapValues tripMap)), 1, 1)
    else
      (.ok (convertToRawTrips data), 1, 0)

/-- The shape consumed by `filterTrips` (`TripWithRoute` in the client
library): a trip carrying possibly-missing endpoint coordinates and the
start/end station names compared by the same-station check.  Coordinates
are `Option` because the source compares them against `null`. -/
structure TripWithRoute where
  id : String
  startStationName : String
  endStationName : String
  startLat : Option ℚ
  startLng : Option ℚ
  endLat : Option ℚ
  endLng : Option ℚ
  deriving DecidableEq, Repr

/-- The predicate of `filterTrips` in `apps/client/lib/trip-filters.ts`:
a trip is kept exactly when all four coordinates are present and the start
and end station names differ. -/
def tripRenderable (t : TripWithRoute) : Bool :=
  !(t.startLat = none || t.startLng = none || t.endLat = none || t.endLng = none)
    && !(t.startStationName = t.endStationName)

/-- Embedding of `filterTrips`: keep only the renderable trips. -/
def filterTrips (trips : List TripWithRoute) : List TripWithRoute :=
  trips.filter tripRenderable

/-- `REAL_MAX_FRAME_DELTA_MS` from `apps/client/lib/config.ts`. -/
def REAL_MAX_FRAME_DELTA_MS : ℚ := 100

/-- The animation store actually driving playback
(`@/lib/stores/animation-store`, imported by `BikeMap.tsx` and
`TimeDisplay.tsx`).  `animationStartDate` is modelled as epoch
milliseconds. -/
structure AnimationStore where
  speedup : ℚ
  animationStartDateMs : ℚ
  isPlaying : Bool
  simCurrentTimeMs : ℚ
  pendingAutoPlay : Bool
  dateSelectionKey : ℕ
  deriving DecidableEq, Repr

/-- Store action `setSpeedup` of the live animation store:
`set({ speedup })`. -/
def AnimationStore.setSpeedup (s : AnimationStore) (v : ℚ) : AnimationStore :=
  { s with speedup := v }

/-- Store action `setAnimationStartDate` of the live animation store: pause,
reset simulated time to zero and bump `dateSelectionKey`. -/
def AnimationStore.setAnimationStartDate (s : AnimationStore) (d : ℚ) :
    AnimationStore :=
  { s with animationStartDateMs := d
           isPlaying := false
           simCurrentTimeMs := 0
           dateSelectionKey := s.dateSelectionKey + 1 }

/-- Store action `setAnimationStartDateAndPlay`: like
`setAnimationStartDate` plus `pendingAutoPlay`. -/
def AnimationStore.setAnimationStartDateAndPlay (s : AnimationStore) (d : ℚ) :
    AnimationStore :=
  { s with animationStartDateMs := d
           isPlaying := false
           simCurrentTimeMs := 0
           pendingAutoPlay := true
           dateSelectionKey := s.dateSelectionKey + 1 }

/-- Store action `clearPendingAutoPlay`. -/
def AnimationStore.clearPendingAutoPlay (s : AnimationStore) : AnimationStore :=
  { s with pendingAutoPlay := false }

/-- Store action `play`. -/
def AnimationStore.play (s : AnimationStore) : AnimationStore :=
  { s with isPlaying := true }

/-- Store action `pause`. -/
def AnimationStore.pause (s : AnimationStore) : AnimationStore :=
  { s with isPlaying := false }

/-- Store action `setSimCurrentTimeMs`. -/
def AnimationStore.setSimCurrentTimeMs (s : AnimationStore) (v : ℚ) :
    AnimationStore :=
  { s with simCurrentTimeMs := v }

/-- Store action `advanceSimTime`: add a (pre-scaled) delta to the
simulated clock. -/
def AnimationStore.advanceSimTime (s : AnimationStore) (deltaMs : ℚ) :
    AnimationStore :=
  { s with simCurrentTimeMs := s.simCurrentTimeMs + deltaMs }

/-- Store action `resetPlayback`. -/
def AnimationStore.resetPlayback (s : AnimationStore) : AnimationStore :=
  { s with isPlaying := false, simCurrentTimeMs := 0 }

/-- One store action of the live animation store, for reasoning about
arbitrary action sequences. -/
inductive AnimationAction where
  | setSpeedup (v : ℚ)
  | setAnimationStartDate (d : ℚ)
  | setAnimationStartDateAndPlay (d : ℚ)
  | clearPendingAutoPlay
  | play
  | pause
  | setSimCurrentTimeMs (v : ℚ)
  | advanceSimTime (deltaMs : ℚ)
  | resetPlayback

/-- Apply one action of the live animation store. -/
def animStep (s : AnimationStore) : AnimationAction → AnimationStore
  | .setSpeedup v => s.setSpeedup v
  | .setAnimationStartDate d => s.setAnimationStartDate d
  | .setAnimationStartDateAndPlay d => s.setAnimationStartDateAndPlay d
  | .clearPendingAutoPlay => s.clearPendingAutoPlay
  | .play => s.play
  | .pause => s.pause
  | .setSimCurrentTimeMs v => s.setSimCurrentTimeMs v
  | .advanceSimTime d => s.advanceSimTime d
  | .resetPlayback => s.resetPlayback

/-- Apply a list of store actions in order. -/
def animSteps (s : AnimationStore) (l : List AnimationAction) : AnimationStore :=
  l.foldl animStep s

/-- The legacy animation store in `apps/client/lib/animation-store.ts`
(not imported by any live component; `BikeMap` and `TimeDisplay` import
`@/lib/stores/animation-store` instead).  `currentTime` is in simulated
seconds. -/
structure LegacyAnimationStore where
  speedup : ℚ
  animationStartDateMs : ℚ
  isPlaying : Bool
  currentTime : ℚ
  deriving DecidableEq, Repr

/-- `setSpeedup` of the legacy store (`apps/client/lib/animation-store.ts`
line 33): `set({ speedup, isPlaying: false, currentTime: 0 })` — it also
resets playback. -/
def LegacyAnimationStore.setSpeedup (s : LegacyAnimationStore) (v : ℚ) :
    LegacyAnimationStore :=
  { s with speedup := v, isPlaying := false, currentTime := 0 }

/-- State of the `tick` animation-frame callback in `BikeMap.tsx`: the
animation store plus `lastTimestampRef.current`. -/
structure TickState where
  store : AnimationStore
  lastTimestamp : Option ℚ

/-- Embedding of one invocation of `tick(timestamp)` in `BikeMap.tsx`
(the station-status side fetch is an external effect and not part of the
simulated-clock state): if a previous timestamp exists, clamp the real
delta to `REAL_MAX_FRAME_DELTA_MS`, multiply by the speed multiplier and
advance simulated time; always record the new timestamp. -/
def tick (st : TickState) (timestamp : ℚ) : TickState :=
  match st.lastTimestamp with
  | none => { st with lastTimestamp := some timestamp }
  | some prev =>
    let realDeltaMs := timestamp - prev
    let safeDelta := min realDeltaMs REAL_MAX_FRAME_DELTA_MS
    { store := st.store.advanceSimTime (safeDelta * st.store.speedup)
      lastTimestamp := some timestamp }

/-- Shared mutable state of `DuckDBService` (`src/unnamed/part_006`,
`registerDataFile`): whether the month's historical CSV is in
`registeredFiles` or `missingFiles`, whether `recurs.json` is registered
and recent (`now - lastFetchTime < REFETCH_INTERVAL_MS`), whether
`currentFetchPromise` is non-null, and counters of underlying network
fetches actually started for each resource. -/
structure DuckState where
  csvRegistered : Bool
  csvMissing : Bool
  jsonRegistered : Bool
  jsonFresh : Bool
  currentFetch : Bool
  csvFetches : ℕ
  jsonFetches : ℕ
  deriving DecidableEq, Repr

/-- Continuation point of one `registerDataFile` caller.  The method body
is cut at its `await` points: `csvFetching` is suspended inside the
historical-CSV `fetch`, `jsonWaiting` is suspended on another caller's
`currentFetchPromise`, `jsonFetching` owns the in-flight JSON fetch, and
the `done…`/`errored` states are returns. -/
inductive RegPc where
  | csvFetching
  | jsonWaiting
  | jsonFetching
  | doneCsv
  | doneJson
  | errored
  deriving DecidableEq, Repr

/-- The real-time JSON branch of `registerDataFile`, executed in one
synchronous turn: return the recent local copy if fresh, join an in-flight
fetch if one exists, otherwise start a new fetch (incrementing the
underlying-fetch counter and setting `currentFetchPromise`). -/
def jsonEntry (g : DuckState) : DuckState × RegPc :=
  if g.jsonRegistered && g.jsonFresh then (g, .doneJson)
  else if g.currentFetch then (g, .jsonWaiting)
  else ({ g with currentFetch := true, jsonFetches := g.jsonFetches + 1 },
        .jsonFetching)

/-- The synchronous entry turn of `registerDataFile(date)`: on the
historical path, return the already-registered CSV, or start a CSV fetch
when the file is not known missing (note: with no single-flight guard);
otherwise fall through to the JSON branch. -/
def registerEntry (g : DuckState) (isHistorical : Bool) : DuckState × RegPc :=
  if isHistorical then
    if g.csvRegistered then (g, .doneCsv)
    else if !g.csvMissing then
      ({ g with csvFetches := g.csvFetches + 1 }, .csvFetching)
    else jsonEntry g
  else jsonEntry g

/-- Resumption of a caller suspended in the CSV fetch: on success register
the buffer and return; on failure mark the file missing and fall through
to the JSON branch (all in the caller's continuation turn). -/
def csvResume (g : DuckState) (ok : Bool) : DuckState × RegPc :=
  if ok then ({ g with csvRegistered := true }, .doneCsv)
  else jsonEntry { g with csvMissing := true }

/-- Settlement of the shared JSON fetch promise (the `finally` clears
`currentFetchPromise`; on success the buffer is registered and
`lastFetchTime` updated). -/
def jsonSettle (g : DuckState) (ok : Bool) : DuckState :=
  if ok then { g with jsonRegistered := true, jsonFresh := true,
                      currentFetch := false }
  else { g with currentFetch := false }

/-- Resumption of the caller that owns the JSON fetch after settlement:
on success return the filename; on failure return stale data if a copy is
registered, else rethrow. -/
def jsonOwnerResume (g : DuckState) (ok : Bool) : DuckState × RegPc :=
  if ok then (g, .doneJson)
  else if g.jsonRegistered then (g, .doneJson)
  else (g, .errored)

/-- Resumption of a caller that was awaiting another caller's
`currentFetchPromise`: on success it returns; on failure it falls through
and unconditionally starts its own new fetch. -/
def jsonWaiterResume (g : DuckState) (ok : Bool) : DuckState × RegPc :=
  if ok then (g, .doneJson)
  else ({ g with currentFetch := true, jsonFetches := g.jsonFetches + 1 },
        .jsonFetching)

/-- Fold a list of entry turns (one per concurrent caller, scheduled in
order) over the shared state, collecting each caller's continuation
point. -/
def registerEntries (g : DuckState) (hists : List Bool) :
    DuckState × List RegPc :=
  hists.foldl
    (fun acc h =>
      let st := registerEntry acc.1 h
      (st.1, acc.2 ++ [st.2]))
    (g, [])

/-- The initial `DuckDBService` state: nothing registered, no fetch in
flight, no fetches performed. -/
def duckInit : DuckState :=
  { csvRegistered := false
    csvMissing := false
    jsonRegistered := false
    jsonFresh := false
    currentFetch := false
    csvFetches := 0
    jsonFetches := 0 }

/-- A map coordinate, `[lng, lat]` as in the deck.gl path format. -/
def GeoPoint : Type := ℚ × ℚ

instance : DecidableEq GeoPoint := instDecidableEqProd

instance : Inhabited GeoPoint := ⟨(0, 0)⟩

instance : Repr GeoPoint := inferInstanceAs (Repr (ℚ × ℚ))

/-- The `Phase` union type from `apps/client/lib/trip-types.ts`. -/
inductive Phase where
  | fadingIn
  | moving
  | fadingOut
  deriving DecidableEq, Repr

/-- The `DeckTrip` record from `apps/client/lib/trip-types.ts`: the
animation-ready projection of a raw trip (static fields) together with the
per-frame mutable fields owned by the Frame Interpolator. -/
structure DeckTrip where
  id : String
  path : List GeoPoint
  timestamps : List ℚ
  bikeType : String
  startTimeSeconds : ℚ
  endTimeSeconds : ℚ
  visibleStartSeconds : ℚ
  visibleEndSeconds : ℚ
  cumulativeDistances : List ℚ
  lastSegmentIndex : ℕ
  fadeInEndSeconds : ℚ
  firstSegmentBearing : ℚ
  lastSegmentBearing : ℚ
  currentPosition : GeoPoint
  currentBearing : ℚ
  currentPhase : Phase
  currentPhaseProgress : ℚ
  isVisible : Bool
  isSelected : Bool
  deriving DecidableEq, Repr

/-- `EASE_DISTANCE_METERS` from `apps/client/lib/config.ts`. -/
def EASE_DISTANCE_METERS : ℚ := 300

/-- `EASE_TIME_MULTIPLIER` from `apps/client/lib/config.ts`. -/
def EASE_TIME_MULTIPLIER : ℚ := 2

/-- Running-sum tail: given an accumulated value and a previous element,
emit the cumulative sums of `d` over consecutive elements. -/
def cumFrom {α : Type} (d : α → α → ℚ) (acc : ℚ) (prev : α) :
    List α → List ℚ
  | [] => []
  | q :: qs => (acc + d prev q) :: cumFrom d (acc + d prev q) q qs

/-- Modelled from the spec: `cumulativeDistances` is the running sum of the
pairwise distance `d` over consecutive path points, starting at `0`
(§4.3 step 2; the worker source holding this computation is not in the
repository). -/
def cumDist {α : Type} (d : α → α → ℚ) : List α → List ℚ
  | [] => []
  | p :: ps => 0 :: cumFrom d 0 p ps

/-- Modelled from the spec: the time weight of one path segment with
cumulative endpoints `ci ≤ cj` of a route of total length `total` — the
plain segment length, stretched by `EASE_TIME_MULTIPLIER` within
`EASE_DISTANCE_METERS` of either route endpoint (§4.3 step 3). -/
def easeWeight (total ci cj : ℚ) : ℚ :=
  if ci < EASE_DISTANCE_METERS ∨ total - cj < EASE_DISTANCE_METERS then
    (cj - ci) * EASE_TIME_MULTIPLIER
  else
    cj - ci

/-- Modelled from the spec: synthesize a two-point straight path
start→end when no route is available, skipping the trip entirely (`none`)
if no usable end coordinates exist (§4.3 step 1). -/
def straightPath (trip : RawTrip) : Option (List GeoPoint) :=
  match trip.endLat, trip.endLng with
  | some elat, some elng => some [(trip.startLng, trip.startLat), (elng, elat)]
  | _, _ => none

/-- Modelled from the spec: the decoded route path when the trip carries a
usable encoded route (`decode` stands for the external polyline decoder),
otherwise the synthesized straight path (§4.3 step 1). -/
def tripPath (decode : String → Option (List GeoPoint)) (trip : RawTrip) :
    Option (List GeoPoint) :=
  match trip.routeGeometry with
  | some s =>
    match decode s with
    | some p => if 2 ≤ p.length then some p else straightPath trip
    | none => straightPath trip
  | none => straightPath trip

/-- Bearing of the first path segment, `0` for degenerate paths. -/
def firstSegBearing (bear : GeoPoint → GeoPoint → ℚ) :
    List GeoPoint → ℚ
  | a :: b :: _ => bear a b
  | _ => 0

/-- Bearing of the last path segment, `0` for degenerate paths. -/
def lastSegBearing (bear : GeoPoint → GeoPoint → ℚ) (p : List GeoPoint) : ℚ :=
  match p.reverse with
  | b :: a :: _ => bear a b
  | _ => 0

/-- Modelled from the spec: `compile(rawTrip, batchWindowStart,
fadeDurationSeconds) → CompiledTrip` (§4.3) — the worker-side trip
geometry/phase compiler, whose source is not in the repository.  `decode`
is the external polyline decoder, `d` the great-circle (or
planar-projected) point distance and `bear` the segment bearing, all
external numeric collaborators passed as parameters.  Steps: decode or
synthesize the path (skipping the trip when impossible), accumulate
distances, distribute `startTimeSeconds..endTimeSeconds` over the path
proportionally to ease-stretched cumulative distance (clamping the
fraction to `0` when the total weight is zero), derive the four visibility
boundaries with `fadeInEndSeconds = startTimeSeconds`, and precompute the
first/last segment bearings. -/
def compile (decode : String → Option (List GeoPoint))
    (d : GeoPoint → GeoPoint → ℚ) (bear : GeoPoint → GeoPoint → ℚ)
    (windowStartMs fadeDurationSimSeconds : ℚ) (trip : RawTrip) :
    Option DeckTrip :=
  match tripPath decode trip with
  | none => none
  | some path =>
    let startS := (trip.startedAtMs - windowStartMs) / 1000
    let endS := (trip.endedAtMs - windowStartMs) / 1000
    let cum := cumDist d path
    let total := cum.getLastD 0
    let cumW := cumDist (easeWeight total) cum
    let totalW := cumW.getLastD 0
    let ts := cumW.map
      (fun w => startS + (endS - startS) * (if totalW = 0 then 0 else w / totalW))
    some
      { id := trip.id
        path := path
        timestamps := ts
        bikeType := trip.rideableType
        startTimeSeconds := startS
        endTimeSeconds := endS
        visibleStartSeconds := startS - fadeDurationSimSeconds
        visibleEndSeconds := endS + fadeDurationSimSeconds
        cumulativeDistances := cum
        lastSegmentIndex := 0
        fadeInEndSeconds := startS
        firstSegmentBearing := firstSegBearing bear path
        lastSegmentBearing := lastSegBearing bear path
        currentPosition := path.headD (0, 0)
        currentBearing := firstSegBearing bear path
        currentPhase := .fadingIn
        currentPhaseProgress := 0
        isVisible := false
        isSelected := false }

/-- Scan tail for `segmentIndex`: count how many further timestamps are
still `≤ t`. -/
def segmentIndexAux (t : ℚ) : List ℚ → ℕ → ℕ
  | [], i => i
  | x :: xs, i => if x ≤ t then segmentIndexAux t xs (i + 1) else i

/-- Modelled from the spec: locate the path segment bracketing `t` in
`timestamps` (§4.5, moving phase).  The cached cursor is purely a
performance cache and never observable, so the model computes the
bracketing segment directly: the largest index whose timestamp is `≤ t`. -/
def segmentIndex (ts : List ℚ) (t : ℚ) : ℕ :=
  match ts with
  | [] => 0
  | _ :: xs => segmentIndexAux t xs 0

/-- Linear interpolation between the endpoints of segment `i` of the path
at fraction `f`. -/
def lerpSegment (path : List GeoPoint) (i : ℕ) (f : ℚ) : GeoPoint :=
  let p0 := path.getD i (0, 0)
  let p1 := path.getD (i + 1) p0
  (p0.1 + f * (p1.1 - p0.1), p0.2 + f * (p1.2 - p0.2))

/-- Modelled from the spec: the Frame Interpolator (§4.5), whose source is
not in the repository.  Given current simulated time `t` (seconds since
window start), update the trip's mutable fields: outside
`[visibleStartSeconds, visibleEndSeconds]` only `isVisible := false` (no
further computation, cursor untouched); on `[visibleStartSeconds,
fadeInEndSeconds)` phase fading-in held at the start point with
`firstSegmentBearing`; on `[fadeInEndSeconds, endTimeSeconds]` phase
moving with the bracketing segment interpolated linearly and the cursor
updated; on `(endTimeSeconds, visibleEndSeconds]` phase fading-out held at
the end point with `lastSegmentBearing`. -/
def interpolate (bear : GeoPoint → GeoPoint → ℚ) (trip : DeckTrip) (t : ℚ) :
    DeckTrip :=
  if t < trip.visibleStartSeconds ∨ t > trip.visibleEndSeconds then
    { trip with isVisible := false }
  else if t < trip.fadeInEndSeconds then
    { trip with
        isVisible := true
        currentPhase := .fadingIn
        currentPosition := trip.path.headD (0, 0)
        currentBearing := trip.firstSegmentBearing
        currentPhaseProgress :=
          if trip.fadeInEndSeconds = trip.visibleStartSeconds then 1
          else (t - trip.visibleStartSeconds) /
            (trip.fadeInEndSeconds - trip.visibleStartSeconds) }
  else if t ≤ trip.endTimeSeconds then
    let i := segmentIndex trip.timestamps t
    let t0 := trip.timestamps.getD i 0
    let t1 := trip.timestamps.getD (i + 1) t0
    let f := if t1 = t0 then 0 else (t - t0) / (t1 - t0)
    let p0 := trip.path.getD i (0, 0)
    let p1 := trip.path.getD (i + 1) p0
    { trip with
        isVisible := true
        currentPhase := .moving
        lastSegmentIndex := i
        currentPosition := lerpSegment trip.path i f
        currentBearing := bear p0 p1
        currentPhaseProgress :=
          if trip.endTimeSeconds = trip.fadeInEndSeconds then 1
          else (t - trip.fadeInEndSeconds) /
            (trip.endTimeSeconds - trip.fadeInEndSeconds) }
  else
    { trip with
        isVisible := true
        currentPhase := .fadingOut
        currentPosition := trip.path.getLastD (0, 0)
        currentBearing := trip.lastSegmentBearing
        currentPhaseProgress :=
          if trip.visibleEndSeconds = trip.endTimeSeconds then 1
          else (t - trip.endTimeSeconds) /
            (trip.visibleEndSeconds - trip.endTimeSeconds) }

theorem jsMapKeys_nil {α : Type} : jsMapKeys ([] : List (String × α)) = [] := rfl

theorem jsMapKeys_replace {α : Type} (k : String) (v : α)
    (m : List (String × α)) :
    jsMapKeys (m.map fun p => if p.1 = k then (k, v) else p) = jsMapKeys m := by
  induction m with
  | nil => rfl
  | cons p ps ih =>
    by_cases h : p.1 = k <;> simp [jsMapKeys, h] <;>
      simpa [jsMapKeys] using ih

theorem any_key_iff {α : Type} (m : List (String × α)) (k : String) :
    (m.any fun p => p.1 = k) = true ↔ k ∈ jsMapKeys m := by
  rw [List.any_eq_true]
  simp only [decide_eq_true_eq, jsMapKeys, List.mem_map]

theorem mem_jsMapKeys_jsMapSet {α : Type} (m : List (String × α)) (k i : String)
    (v : α) :
    i ∈ jsMapKeys (jsMapSet m k v) ↔ i ∈ jsMapKeys m ∨ i = k := by
  unfold jsMapSet
  by_cases h : (m.any fun p => p.1 = k) = true
  · rw [if_pos h, jsMapKeys_replace]
    have hk : k ∈ jsMapKeys m := (any_key_iff m k).mp h
    constructor
    · exact Or.inl
    · rintro (hi | rfl)
      · exact hi
      · exact hk
  · rw [if_neg h]
    simp [jsMapKeys]

theorem nodup_jsMapKeys_jsMapSet {α : Type} (m : List (String × α)) (k : String)
    (v : α) (hm : (jsMapKeys m).Nodup) :
    (jsMapKeys (jsMapSet m k v)).Nodup := by
  unfold jsMapSet
  by_cases h : (m.any fun p => p.1 = k) = true
  · rw [if_pos h, jsMapKeys_replace]; exact hm
  · rw [if_neg h]
    have hk : k ∉ jsMapKeys m := fun hmem => h ((any_key_iff m k).mpr hmem)
    simp only [jsMapKeys, List.map_append, List.map_cons, List.map_nil]
    refine List.Nodup.append hm (List.nodup_singleton k) ?_
    intro a ha hb
    have : a = k := by simpa using hb
    exact hk (by simpa [jsMapKeys, this] using ha)

theorem mem_jsMapKeys_jsMapSetAll {α : Type} (key : α → String)
    (l : List α) (m : List (String × α)) (i : String) :
    i ∈ jsMapKeys (jsMapSetAll key m l) ↔ i ∈ jsMapKeys m ∨ i ∈ l.map key := by
  induction l generalizing m with
  | nil => simp [jsMapSetAll]
  | cons t ts ih =>
    show i ∈ jsMapKeys (jsMapSetAll key (jsMapSet m (key t) t) ts) ↔ _
    rw [ih, mem_jsMapKeys_jsMapSet]
    simp [or_assoc, or_comm, or_left_comm]

theorem nodup_jsMapKeys_jsMapSetAll {α : Type} (key : α → String)
    (l : List α) (m : List (String × α)) (hm : (jsMapKeys m).Nodup) :
    (jsMapKeys (jsMapSetAll key m l)).Nodup := by
  induction l generalizing m with
  | nil => exact hm
  | cons t ts ih =>
    exact ih (jsMapSet m (key t) t) (nodup_jsMapKeys_jsMapSet m (key t) t hm)

/-- A map is well keyed when every stored entry is keyed by its trip id;
the dedupe maps built by `fetchBatch` maintain this. -/
def WellKeyed (m : List (String × ServerTrip)) : Prop :=
  ∀ p ∈ m, ServerTrip.id p.2 = p.1

theorem wellKeyed_nil : WellKeyed [] := by
  intro p hp
  cases hp

theorem wellKeyed_jsMapSet (m : List (String × ServerTrip)) (t : ServerTrip)
    (hm : WellKeyed m) : WellKeyed (jsMapSet m t.id t) := by
  unfold jsMapSet
  by_cases h : (m.any fun p => p.1 = t.id) = true
  · rw [if_pos h]
    intro p hp
    rcases List.mem_map.mp hp with ⟨q, hq, he⟩
    by_cases hqk : q.1 = t.id
    · simp [hqk] at he
      simp [← he]
    · simp [hqk] at he
      exact he ▸ hm q hq
  · rw [if_neg h]
    intro p hp
    rcases List.mem_append.mp hp with hp1 | hp1
    · exact hm p hp1
    · simp at hp1
      simp [hp1]

theorem wellKeyed_jsMapSetAll (l : List ServerTrip)
    (m : List (String × ServerTrip)) (hm : WellKeyed m) :
    WellKeyed (jsMapSetAll ServerTrip.id m l) := by
  induction l generalizing m with
  | nil => exact hm
  | cons t ts ih => exact ih (jsMapSet m t.id t) (wellKeyed_jsMapSet m t hm)

theorem jsMapValues_map_id_eq_keys (m : List (String × ServerTrip))
    (hm : WellKeyed m) :
    (jsMapValues m).map ServerTrip.id = jsMapKeys m := by
  unfold jsMapValues jsMapKeys
  rw [List.map_map]
  exact List.map_congr_left fun p hp => hm p hp

theorem convertToRawTrips_map_id (l : List ServerTrip) :
    (convertToRawTrips l).map RawTrip.id = l.map ServerTrip.id := by
  unfold convertToRawTrips
  rw [List.map_map]
  rfl

/-- Model of `Map.prototype.get`: the value of the first entry with the
given key. -/
def jsMapGet {α : Type} (m : List (String × α)) (k : String) : Option α :=
  (m.find? (fun p => p.1 = k)).map Prod.snd

theorem jsMapGet_jsMapSet_self {α : Type} (m : List (String × α)) (k : String)
    (v : α) : jsMapGet (jsMapSet m k v) k = some v := by
  unfold jsMapSet jsMapGet
  by_cases h : (m.any fun p => p.1 = k) = true
  · rw [if_pos h]
    induction m with
    | nil => simp at h
    | cons p ps ih =>
      by_cases hp : p.1 = k
      · simp [List.find?, hp]
      · have hps : (ps.any fun q => q.1 = k) = true := by
          simpa [List.any_cons, hp] using h
        simpa [List.find?, hp] using ih hps
  · rw [if_neg h]
    induction m with
    | nil => simp [List.find?]
    | cons p ps ih =>
      have hp : ¬ p.1 = k := by
        intro hk
        exact h (by simp [List.any_cons, hk])
      have hps : ¬ (ps.any fun q => q.1 = k) = true := by
        intro hk
        exact h (by simp [List.any_cons, hk])
      simpa [List.find?, hp] using ih hps

theorem find?_replace {α : Type} (k k0 : String) (v : α) (hne : k0 ≠ k)
    (m : List (String × α)) :
    (m.map fun p => if p.1 = k then (k, v) else p).find? (fun p => p.1 = k0) =
      m.find? (fun p => p.1 = k0) := by
  induction m with
  | nil => rfl
  | cons p ps ih =>
    rw [List.map_cons]
    by_cases hp0 : p.1 = k0
    · have hpk : ¬ p.1 = k := by
        rw [hp0]
        exact fun hh => hne hh
      rw [if_neg hpk, List.find?_cons_of_pos _ (by simp [hp0]),
        List.find?_cons_of_pos _ (by simp [hp0])]
    · by_cases hp : p.1 = k
      · rw [if_pos hp, List.find?_cons_of_neg _ (by simp; exact fun hh => hne hh.symm),
          List.find?_cons_of_neg _ (by simp [hp0]), ih]
      · rw [if_neg hp, List.find?_cons_of_neg _ (by simp [hp0]),
          List.find?_cons_of_neg _ (by simp [hp0]), ih]

theorem jsMapGet_jsMapSet_other {α : Type} (m : List (String × α))
    (k k0 : String) (v : α) (hne : k0 ≠ k) :
    jsMapGet (jsMapSet m k v) k0 = jsMapGet m k0 := by
  unfold jsMapSet jsMapGet
  by_cases h : (m.any fun p => p.1 = k) = true
  · rw [if_pos h, find?_replace k k0 v hne]
  · rw [if_neg h]
    induction m with
    | nil =>
      rw [List.nil_append, List.find?_nil,
        List.find?_cons_of_neg _ (by simp; exact fun hh => hne hh.symm), List.find?_nil]
    | cons p ps ih =>
      have hps : ¬ (ps.any fun q => q.1 = k) = true := by
        intro hk
        exact h (by simp [List.any_cons, hk])
      by_cases hp0 : p.1 = k0
      · rw [List.cons_append, List.find?_cons_of_pos _ (by simp [hp0]),
          List.find?_cons_of_pos _ (by simp [hp0])]
      · rw [List.cons_append, List.find?_cons_of_neg _ (by simp [hp0]),
          List.find?_cons_of_neg _ (by simp [hp0])]
        exact ih hps

theorem jsMapGet_jsMapSetAll_not_mem {α : Type} (key : α → String)
    (l : List α) (m : List (String × α)) (k : String)
    (hk : k ∉ l.map key) :
    jsMapGet (jsMapSetAll key m l) k = jsMapGet m k := by
  induction l generalizing m with
  | nil => rfl
  | cons t ts ih =>
    have hkt : k ≠ key t := by
      intro hh
      exact hk (by simp [hh])
    have hkts : k ∉ ts.map key := by
      intro hh
      exact hk (by simp [hh])
    show jsMapGet (jsMapSetAll key (jsMapSet m (key t) t) ts) k = _
    rw [ih (jsMapSet m (key t) t) hkts, jsMapGet_jsMapSet_other m (key t) k t hkt]

theorem jsMapGet_jsMapSetAll_last {α : Type} (key : α → String)
    (l1 l2 : List α) (t : α) (m : List (String × α))
    (hk : key t ∉ l2.map key) :
    jsMapGet (jsMapSetAll key m (l1 ++ t :: l2)) (key t) = some t := by
  have : jsMapSetAll key m (l1 ++ t :: l2) =
      jsMapSetAll key (jsMapSet (jsMapSetAll key m l1) (key t) t) l2 := by
    simp [jsMapSetAll, List.foldl_append]
  rw [this, jsMapGet_jsMapSetAll_not_mem key l2 _ (key t) hk,
    jsMapGet_jsMapSet_self]

theorem mem_jsMapValues_of_get {α : Type} (m : List (String × α)) (k : String)
    (v : α) (h : jsMapGet m k = some v) : v ∈ jsMapValues m := by
  unfold jsMapGet at h
  rcases Option.map_eq_some'.mp h with ⟨p, hp, he⟩
  exact he ▸ List.mem_map_of_mem Prod.snd (List.mem_of_find?_eq_some hp)

/-- The merged, identifier-deduplicated batch-0 result of `fetchBatch`:
overlap trips inserted first, in-window trips second. -/
def batchZeroMerge (oData wData : List ServerTrip) : List RawTrip :=
  convertToRawTrips
    (jsMapValues (jsMapSetAll ServerTrip.id (jsMapSetAll ServerTrip.id [] oData) wData))

/-- Concrete trip builder for scenario instances. -/
def mkServerTrip (i : String) : ServerTrip :=
  { id := i
    startStationId := "s"
    endStationId := "e"
    startedAt := 0
    endedAt := 60000
    rideableType := "classic_bike"
    memberCasual := "member"
    startLat := 0
    startLng := 0
    endLat := some 1
    endLng := some 1
    routeGeometry := none
    routeDistance := none
    routeDuration := none }

/-- Five trips starting inside the batch-0 window (scenario input). -/
def inWindowTrips : List ServerTrip :=
  [mkServerTrip "w1", mkServerTrip "w2", mkServerTrip "w3",
   mkServerTrip "w4", mkServerTrip "w5"]

/-- Three trips already in progress at the window start, one of which
shares the identifier `w1` with an in-window trip (scenario input). -/
def overlapTrips : List ServerTrip :=
  [mkServerTrip "o1", mkServerTrip "o2", mkServerTrip "w1"]

/-- Scenario configuration for the batch-0 bootstrap. -/
def batchScenarioCfg : TripDataServiceConfig := ⟨0, 0, 5⟩

theorem fetchBatch_zero_eq (gr gc : QueryWindow → Except String (List ServerTrip))
    (cfg : TripDataServiceConfig) (wData oData : List ServerTrip)
    (hw : gr (ridesWindow cfg 0) = .ok wData)
    (ho : gc (overlapWindow cfg) = .ok oData) :
    fetchBatch gr gc cfg 0 = .ok (batchZeroMerge oData wData) := by
  unfold fetchBatch batchZeroMerge
  rw [hw]
  show (Except.ok wData).bind _ = _
  rw [Except.bind]
  simp only [if_pos rfl, ho]
  rfl

/-- C1: for every session, batch 0 returns the identifier-deduplicated
union of the in-window trips and the trips already in progress at the
window start (no identifier occurs twice, and an identifier occurs exactly
when it occurs in one of the two query results); in the concrete bootstrap
scenario with 5 in-window trips and 3 in-progress trips of which one
shares an identifier with an in-window trip, exactly 7 unique trips are
returned. -/
theorem fetchBatch_zero_dedup_union
    (gr gc : QueryWindow → Except String (List ServerTrip))
    (cfg : TripDataServiceConfig) (wData oData : List ServerTrip)
    (hw : gr (ridesWindow cfg 0) = .ok wData)
    (ho : gc (overlapWindow cfg) = .ok oData) :
    fetchBatch gr gc cfg 0 = .ok (batchZeroMerge oData wData) ∧
    ((batchZeroMerge oData wData).map RawTrip.id).Nodup ∧
    (∀ i, i ∈ (batchZeroMerge oData wData).map RawTrip.id ↔
      i ∈ wData.map ServerTrip.id ∨ i ∈ oData.map ServerTrip.id) ∧
    (fetchBatch (fun _ => .ok inWindowTrips) (fun _ => .ok overlapTrips)
      batchScenarioCfg 0).map List.length = .ok 7 := by
  have hwk : WellKeyed (jsMapSetAll ServerTrip.id (jsMapSetAll ServerTrip.id [] oData) wData) :=
    wellKeyed_jsMapSetAll wData _ (wellKeyed_jsMapSetAll oData [] wellKeyed_nil)
  have hid : (batchZeroMerge oData wData).map RawTrip.id =
      jsMapKeys (jsMapSetAll ServerTrip.id (jsMapSetAll ServerTrip.id [] oData) wData) := by
    unfold batchZeroMerge
    rw [convertToRawTrips_map_id, jsMapValues_map_id_eq_keys _ hwk]
  refine ⟨fetchBatch_zero_eq gr gc cfg wData oData hw ho, ?_, ?_, by rfl⟩
  · rw [hid]
    exact nodup_jsMapKeys_jsMapSetAll _ _ _
      (nodup_jsMapKeys_jsMapSetAll _ _ _ List.nodup_nil)
  · intro i
    rw [hid, mem_jsMapKeys_jsMapSetAll, mem_jsMapKeys_jsMapSetAll]
    simp [jsMapKeys, or_comm]

theorem fetchBatch_zero_dedup_union_witness :
    (fun _ => Except.ok inWindowTrips : QueryWindow → Except String (List ServerTrip))
        (ridesWindow batchScenarioCfg 0) = .ok inWindowTrips ∧
    ((batchZeroMerge overlapTrips inWindowTrips).map RawTrip.id).Nodup ∧
    (fetchBatch (fun _ => .ok inWindowTrips) (fun _ => .ok overlapTrips)
      batchScenarioCfg 0).map List.length = .ok 7 :=
  ⟨rfl,
   (fetchBatch_zero_dedup_union (fun _ => .ok inWindowTrips)
     (fun _ => .ok overlapTrips) batchScenarioCfg inWindowTrips overlapTrips
     rfl rfl).2.1,
   (fetchBatch_zero_dedup_union (fun _ => .ok inWindowTrips)
     (fun _ => .ok overlapTrips) batchScenarioCfg inWindowTrips overlapTrips
     rfl rfl).2.2.2⟩

/-- C10: in the batch-0 merge, an identifier occurring both among the
overlap (already-in-progress) trips and among the in-window trips is kept
exactly once, and the copy kept is the starting-in-window one (in-window
entries are inserted after, and therefore overwrite, overlap entries). -/
theorem fetchBatch_zero_in_window_copy_wins
    (gr gc : QueryWindow → Except String (List ServerTrip))
    (cfg : TripDataServiceConfig) (wData oData : List ServerTrip)
    (w : ServerTrip)
    (hw : gr (ridesWindow cfg 0) = .ok wData)
    (ho : gc (overlapWindow cfg) = .ok oData)
    (hmem : w ∈ wData)
    (hnodW : (wData.map ServerTrip.id).Nodup)
    (hO : w.id ∈ oData.map ServerTrip.id) :
    fetchBatch gr gc cfg 0 = .ok (batchZeroMerge oData wData) ∧
    convertToRawTrip w ∈ batchZeroMerge oData wData ∧
    ((batchZeroMerge oData wData).map RawTrip.id).count w.id = 1 := by
  have hwk : WellKeyed (jsMapSetAll ServerTrip.id (jsMapSetAll ServerTrip.id [] oData) wData) :=
    wellKeyed_jsMapSetAll wData _ (wellKeyed_jsMapSetAll oData [] wellKeyed_nil)
  have hid : (batchZeroMerge oData wData).map RawTrip.id =
      jsMapKeys (jsMapSetAll ServerTrip.id (jsMapSetAll ServerTrip.id [] oData) wData) := by
    unfold batchZeroMerge
    rw [convertToRawTrips_map_id, jsMapValues_map_id_eq_keys _ hwk]
  rcases List.append_of_mem hmem with ⟨l1, l2, rfl⟩
  have hl2 : ServerTrip.id w ∉ l2.map ServerTrip.id := by
    have hmap := hnodW
    rw [List.map_append, List.map_cons] at hmap
    exact (List.nodup_cons.mp hmap.of_append_right).1
  have hget : jsMapGet (jsMapSetAll ServerTrip.id
      (jsMapSetAll ServerTrip.id [] oData) (l1 ++ w :: l2)) (ServerTrip.id w) = some w :=
    jsMapGet_jsMapSetAll_last ServerTrip.id l1 l2 w _ hl2
  have hvals : w ∈ jsMapValues (jsMapSetAll ServerTrip.id
      (jsMapSetAll ServerTrip.id [] oData) (l1 ++ w :: l2)) :=
    mem_jsMapValues_of_get _ _ _ hget
  have hmemRes : convertToRawTrip w ∈ batchZeroMerge oData (l1 ++ w :: l2) :=
    List.mem_map_of_mem convertToRawTrip hvals
  refine ⟨fetchBatch_zero_eq gr gc cfg _ oData hw ho, hmemRes, ?_⟩
  have hnodKeys : ((batchZeroMerge oData (l1 ++ w :: l2)).map RawTrip.id).Nodup := by
    rw [hid]
    exact nodup_jsMapKeys_jsMapSetAll _ _ _
      (nodup_jsMapKeys_jsMapSetAll _ _ _ List.nodup_nil)
  have hkmem : RawTrip.id (convertToRawTrip w) ∈
      (batchZeroMerge oData (l1 ++ w :: l2)).map RawTrip.id :=
    List.mem_map_of_mem RawTrip.id hmemRes
  have : RawTrip.id (convertToRawTrip w) = ServerTrip.id w := rfl
  rw [← this]
  exact List.count_eq_one_of_mem hnodKeys hkmem

theorem fetchBatch_zero_in_window_copy_wins_witness :
    mkServerTrip "w1" ∈ inWindowTrips ∧
    convertToRawTrip (mkServerTrip "w1") ∈ batchZeroMerge overlapTrips inWindowTrips ∧
    ((batchZeroMerge overlapTrips inWindowTrips).map RawTrip.id).count
      (mkServerTrip "w1").id = 1 :=
  ⟨by decide,
   (fetchBatch_zero_in_window_copy_wins (fun _ => .ok inWindowTrips)
     (fun _ => .ok overlapTrips) batchScenarioCfg inWindowTrips overlapTrips
     (mkServerTrip "w1") rfl rfl (by decide) (by decide) (by decide)).2.1,
   (fetchBatch_zero_in_window_copy_wins (fun _ => .ok inWindowTrips)
     (fun _ => .ok overlapTrips) batchScenarioCfg inWindowTrips overlapTrips
     (mkServerTrip "w1") rfl rfl (by decide) (by decide) (by decide)).2.2⟩

/-- C8: a failing store query makes `fetchBatch` reject with the same
error, with no retry and no partial batch: each query is invoked at most
once (the rides query exactly once), a rides-query error or a batch-0
overlap-query error is returned unchanged, and on success the result is
the complete converted trip array. -/
theorem fetchBatch_error_propagation
    (gr gc : QueryWindow → Except String (List ServerTrip))
    (cfg : TripDataServiceConfig) (batchId : ℕ) :
    (fetchBatchCounting gr gc cfg batchId).1 = fetchBatch gr gc cfg batchId ∧
    (fetchBatchCounting gr gc cfg batchId).2.1 = 1 ∧
    (fetchBatchCounting gr gc cfg batchId).2.2 ≤ 1 ∧
    (∀ e, gr (ridesWindow cfg batchId) = .error e →
      fetchBatch gr gc cfg batchId = .error e) ∧
    (∀ e wData, batchId = 0 → gr (ridesWindow cfg batchId) = .ok wData →
      gc (overlapWindow cfg) = .error e →
      fetchBatch gr gc cfg batchId = .error e) ∧
    (∀ wData, batchId ≠ 0 → gr (ridesWindow cfg batchId) = .ok wData →
      fetchBatch gr gc cfg batchId = .ok (convertToRawTrips wData)) := by
  refine ⟨?_, ?_, ?_, ?_, ?_, ?_⟩
  · unfold fetchBatch fetchBatchCounting
    cases hr : gr (ridesWindow cfg batchId) with
    | error e => rfl
    | ok w =>
      cases batchId with
      | zero =>
        cases hc : gc (overlapWindow cfg) with
        | error e => rfl
        | ok o => rfl
      | succ n => rfl
  · unfold fetchBatchCounting
    cases hr : gr (ridesWindow cfg batchId) with
    | error e => rfl
    | ok w =>
      cases batchId with
      | zero =>
        cases hc : gc (overlapWindow cfg) with
        | error e => rfl
        | ok o => rfl
      | succ n => rfl
  · unfold fetchBatchCounting
    cases hr : gr (ridesWindow cfg batchId) with
    | error e => exact Nat.zero_le 1
    | ok w =>
      cases batchId with
      | zero =>
        cases hc : gc (overlapWindow cfg) with
        | error e => exact le_refl 1
        | ok o => exact le_refl 1
      | succ n => exact Nat.zero_le 1
  · intro e he
    unfold fetchBatch
    rw [he]
    rfl
  · intro e wData h0 hok hce
    subst h0
    unfold fetchBatch
    rw [hok, hce]
    rfl
  · intro wData hne hok
    unfold fetchBatch
    rw [hok]
    cases batchId with
    | zero => exact absurd rfl hne
    | succ n => rfl

theorem fetchBatch_error_propagation_witness :
    fetchBatch (fun _ => .error "network down") (fun _ => .ok overlapTrips)
      batchScenarioCfg 0 = .error "network down" ∧
    (fetchBatchCounting (fun _ => .error "network down") (fun _ => .ok overlapTrips)
      batchScenarioCfg 0).2.1 = 1 :=
  ⟨(fetchBatch_error_propagation (fun _ => .error "network down")
      (fun _ => .ok overlapTrips) batchScenarioCfg 0).2.2.2.1 "network down" rfl,
   (fetchBatch_error_propagation (fun _ => .error "network down")
      (fun _ => .ok overlapTrips) batchScenarioCfg 0).2.1⟩

/-- C9: a trip is kept by `filterTrips` exactly when it is in the input
and renderable — present start and end coordinates and distinct start/end
stations — so unrenderable trips are dropped individually while all others
are kept, and a batch whose every trip is dropped yields the valid empty
result rather than an error. -/
theorem filterTrips_drops_only_unrenderable (trips : List TripWithRoute)
    (t : TripWithRoute) :
    (t ∈ filterTrips trips ↔ t ∈ trips ∧ tripRenderable t = true) ∧
    (tripRenderable t = true ↔
      (t.startLat ≠ none ∧ t.startLng ≠ none ∧ t.endLat ≠ none ∧
       t.endLng ≠ none ∧ t.startStationName ≠ t.endStationName)) ∧
    ((∀ u ∈ trips, tripRenderable u = false) → filterTrips trips = []) := by
  refine ⟨List.mem_filter, ?_, ?_⟩
  · unfold tripRenderable
    simp [and_assoc]
  · intro hall
    unfold filterTrips
    rw [List.filter_eq_nil_iff]
    intro u hu
    rw [hall u hu]
    exact Bool.false_ne_true

/-- A trip with no end coordinates (unrenderable input). -/
def unrenderableTrip : TripWithRoute :=
  { id := "bad"
    startStationName := "A"
    endStationName := "B"
    startLat := some 1
    startLng := some 2
    endLat := none
    endLng := none }

/-- A same-station trip (unrenderable input). -/
def sameStationTrip : TripWithRoute :=
  { id := "loop"
    startStationName := "A"
    endStationName := "A"
    startLat := some 1
    startLng := some 2
    endLat := some 1
    endLng := some 2 }

theorem filterTrips_drops_only_unrenderable_witness :
    (∀ u ∈ [unrenderableTrip, sameStationTrip], tripRenderable u = false) ∧
    filterTrips [unrenderableTrip, sameStationTrip] = [] :=
  ⟨by decide,
   (filterTrips_drops_only_unrenderable [unrenderableTrip, sameStationTrip]
     unrenderableTrip).2.2 (by decide)⟩

/-- C2: while playing, one `tick` with a previous frame timestamp advances
simulated time by exactly `min(realDelta, REAL_MAX_FRAME_DELTA_MS) *
speedup` — the clamp applies to the real delta before the speed
multiplication — so with a non-negative speed multiplier a single frame
never advances simulated time by more than
`REAL_MAX_FRAME_DELTA_MS * speedup`. -/
theorem tick_clamps_then_scales (st : TickState) (prev ts : ℚ)
    (hprev : st.lastTimestamp = some prev) (hsp : 0 ≤ st.store.speedup) :
    (tick st ts).store.simCurrentTimeMs =
      st.store.simCurrentTimeMs +
        min (ts - prev) REAL_MAX_FRAME_DELTA_MS * st.store.speedup ∧
    (tick st ts).store.simCurrentTimeMs - st.store.simCurrentTimeMs ≤
      REAL_MAX_FRAME_DELTA_MS * st.store.speedup := by
  unfold tick
  rw [hprev]
  refine ⟨rfl, ?_⟩
  unfold AnimationStore.advanceSimTime
  simp only [add_sub_cancel_left]
  exact mul_le_mul_of_nonneg_right (min_le_right _ _) hsp

theorem tick_clamps_then_scales_witness :
    (tick ⟨⟨2, 0, true, 7, false, 0⟩, some 100⟩ 500).store.simCurrentTimeMs =
      7 + min (500 - 100) REAL_MAX_FRAME_DELTA_MS * 2 ∧
    (tick ⟨⟨2, 0, true, 7, false, 0⟩, some 100⟩ 500).store.simCurrentTimeMs - 7 ≤
      REAL_MAX_FRAME_DELTA_MS * 2 :=
  tick_clamps_then_scales ⟨⟨2, 0, true, 7, false, 0⟩, some 100⟩ 100 500 rfl
    (by norm_num)

/-- C6 counterexample: in the legacy store `apps/client/lib/animation-store.ts`,
`setSpeedup` resets already-elapsed simulated time: from `currentTime = 500`,
calling `setSpeedup 300` leaves `currentTime = 0`, not `500`. -/
theorem legacy_setSpeedup_resets_sim_time :
    ((⟨150, 0, true, 500⟩ : LegacyAnimationStore).setSpeedup 300).currentTime = 0 ∧
    (⟨150, 0, true, 500⟩ : LegacyAnimationStore).currentTime = 500 ∧
    ((⟨150, 0, true, 500⟩ : LegacyAnimationStore).setSpeedup 300).currentTime ≠
      (⟨150, 0, true, 500⟩ : LegacyAnimationStore).currentTime := by
  refine ⟨rfl, rfl, ?_⟩
  norm_num [LegacyAnimationStore.setSpeedup]

/-- C6 amended: in the animation store that drives playback
(`lib/stores/animation-store`, imported by `BikeMap`/`TimeDisplay`),
`setSpeedup` leaves the current simulated time (and the playing flag)
exactly as they were, and only future frame deltas are scaled by the new
multiplier; the legacy `apps/client/lib/animation-store.ts` `setSpeedup`
additionally pauses and resets simulated time to zero. -/
theorem setSpeedup_preserves_sim_time (s : AnimationStore) (v prev ts : ℚ)
    (ls : LegacyAnimationStore) :
    (s.setSpeedup v).simCurrentTimeMs = s.simCurrentTimeMs ∧
    (s.setSpeedup v).speedup = v ∧
    (s.setSpeedup v).isPlaying = s.isPlaying ∧
    (tick ⟨s.setSpeedup v, some prev⟩ ts).store.simCurrentTimeMs =
      s.simCurrentTimeMs + min (ts - prev) REAL_MAX_FRAME_DELTA_MS * v ∧
    (ls.setSpeedup v).currentTime = 0 ∧
    (ls.setSpeedup v).isPlaying = false := by
  exact ⟨rfl, rfl, rfl, rfl, rfl, rfl⟩

theorem animStep_key_mono (s : AnimationStore) (a : AnimationAction) :
    s.dateSelectionKey ≤ (animStep s a).dateSelectionKey := by
  cases a <;>
    simp [animStep, AnimationStore.setSpeedup, AnimationStore.setAnimationStartDate,
      AnimationStore.setAnimationStartDateAndPlay, AnimationStore.clearPendingAutoPlay,
      AnimationStore.play, AnimationStore.pause, AnimationStore.setSimCurrentTimeMs,
      AnimationStore.advanceSimTime, AnimationStore.resetPlayback]

theorem animSteps_key_mono (l : List AnimationAction) (s : AnimationStore) :
    s.dateSelectionKey ≤ (animSteps s l).dateSelectionKey := by
  induction l generalizing s with
  | nil => exact le_refl _
  | cons a as ih => exact le_trans (animStep_key_mono s a) (ih (animStep s a))

theorem animSteps_append (s : AnimationStore) (l1 l2 : List AnimationAction) :
    animSteps s (l1 ++ l2) = animSteps (animSteps s l1) l2 := by
  unfold animSteps
  rw [List.foldl_append]

/-- C7: a seek (`setAnimationStartDate`, or its auto-play variant) resets
simulated time to zero, stops playback, and increments the monotonically
non-decreasing `dateSelectionKey` by one, so the generation tag after a
seek is strictly larger than at every earlier point of any action
sequence. -/
theorem seek_resets_and_bumps_generation (s : AnimationStore)
    (l1 l2 : List AnimationAction) (d : ℚ) :
    ((animSteps s (l1 ++ l2)).setAnimationStartDate d).simCurrentTimeMs = 0 ∧
    ((animSteps s (l1 ++ l2)).setAnimationStartDate d).isPlaying = false ∧
    ((animSteps s (l1 ++ l2)).setAnimationStartDate d).dateSelectionKey =
      (animSteps s (l1 ++ l2)).dateSelectionKey + 1 ∧
    (animSteps s l1).dateSelectionKey <
      ((animSteps s (l1 ++ l2)).setAnimationStartDate d).dateSelectionKey ∧
    ((animSteps s (l1 ++ l2)).setAnimationStartDateAndPlay d).simCurrentTimeMs = 0 ∧
    ((animSteps s (l1 ++ l2)).setAnimationStartDateAndPlay d).isPlaying = false ∧
    (animSteps s l1).dateSelectionKey <
      ((animSteps s (l1 ++ l2)).setAnimationStartDateAndPlay d).dateSelectionKey := by
  have hmono : (animSteps s l1).dateSelectionKey ≤
      (animSteps s (l1 ++ l2)).dateSelectionKey := by
    rw [animSteps_append]
    exact animSteps_key_mono l2 (animSteps s l1)
  refine ⟨rfl, rfl, rfl, ?_, rfl, rfl, ?_⟩
  · exact lt_of_le_of_lt hmono (Nat.lt_succ_self _)
  · exact lt_of_le_of_lt hmono (Nat.lt_succ_self _)

theorem registerEntries_fst (g : DuckState) (hists : List Bool) :
    (registerEntries g hists).1 =
      hists.foldl (fun gg hh => (registerEntry gg hh).1) g := by
  suffices h : ∀ acc : List RegPc,
      (hists.foldl
        (fun a h => ((registerEntry a.1 h).1, a.2 ++ [(registerEntry a.1 h).2]))
        (g, acc)).1 =
      hists.foldl (fun gg hh => (registerEntry gg hh).1) g by
    exact h []
  induction hists generalizing g with
  | nil => intro acc; rfl
  | cons b bs ih => intro acc; exact ih (registerEntry g b).1 _

theorem registerEntry_in_flight (g : DuckState) (hist : Bool)
    (h : g.currentFetch = true) :
    (registerEntry g hist).1.jsonFetches = g.jsonFetches ∧
    (registerEntry g hist).1.currentFetch = true := by
  unfold registerEntry jsonEntry
  cases hist <;> split_ifs <;> simp_all

/-- C5 counterexample: two concurrent `registerDataFile` calls for the
same historical CSV file: the second call enters while the first call's
fetch is still in flight (the first caller is suspended at `csvFetching`),
yet it starts a second underlying fetch, because the CSV path has no
single-flight guard — 2 underlying fetches, where the claim requires
exactly 1. -/
theorem registerDataFile_csv_not_single_flight :
    (registerEntry duckInit true).2 = RegPc.csvFetching ∧
    (registerEntry duckInit true).1.csvFetches = 1 ∧
    (registerEntries duckInit [true, true]).2 =
      [RegPc.csvFetching, RegPc.csvFetching] ∧
    (registerEntries duckInit [true, true]).1.csvFetches = 2 ∧
    (registerEntries duckInit [true, true]).1.csvFetches ≠ 1 := by
  refine ⟨rfl, rfl, rfl, rfl, by decide⟩

/-- C5 amended: single-flight holds for the real-time JSON snapshot
(`currentFetchPromise` guard): while a JSON fetch is in flight, any number
of additional `registerDataFile` entries start no new underlying JSON
fetch — each such caller either returns the registered fresh copy or
awaits the shared in-flight promise — and when the shared promise settles
successfully every waiter completes with its result; historical CSV
fetches, by contrast, are not coalesced. -/
theorem registerDataFile_json_single_flight (g : DuckState)
    (hists : List Bool) (h : g.currentFetch = true) :
    (registerEntries g hists).1.jsonFetches = g.jsonFetches ∧
    (registerEntries g hists).1.currentFetch = true ∧
    ((registerEntry g false).1 = g ∧
      ((registerEntry g false).2 = RegPc.jsonWaiting ∨
       (registerEntry g false).2 = RegPc.doneJson)) ∧
    (∀ g1 : DuckState, jsonWaiterResume g1 true = (g1, RegPc.doneJson)) := by
  have hfold : ∀ (l : List Bool) (g0 : DuckState), g0.currentFetch = true →
      (l.foldl (fun gg hh => (registerEntry gg hh).1) g0).jsonFetches = g0.jsonFetches ∧
      (l.foldl (fun gg hh => (registerEntry gg hh).1) g0).currentFetch = true := by
    intro l
    induction l with
    | nil => intro g0 h0; exact ⟨rfl, h0⟩
    | cons b bs ih =>
      intro g0 h0
      have hstep := registerEntry_in_flight g0 b h0
      have := ih (registerEntry g0 b).1 hstep.2
      exact ⟨hstep.1 ▸ this.1, this.2⟩
  refine ⟨?_, ?_, ?_, ?_⟩
  · rw [registerEntries_fst]
    exact (hfold hists g h).1
  · rw [registerEntries_fst]
    exact (hfold hists g h).2
  · constructor
    · unfold registerEntry jsonEntry
      split_ifs <;> simp_all
    · unfold registerEntry jsonEntry
      split_ifs <;> simp_all
  · intro g1
    rfl

/-- A state with the shared JSON fetch in flight (one underlying fetch
already started), used to instantiate the single-flight theorem. -/
def duckInFlight : DuckState :=
  { csvRegistered := false
    csvMissing := true
    jsonRegistered := false
    jsonFresh := false
    currentFetch := true
    csvFetches := 0
    jsonFetches := 1 }

theorem registerDataFile_json_single_flight_witness :
    duckInFlight.currentFetch = true ∧
    (registerEntries duckInFlight [false, false, true]).1.jsonFetches = 1 ∧
    (registerEntry duckInFlight false).2 = RegPc.jsonWaiting ∨
      (registerEntry duckInFlight false).2 = RegPc.doneJson :=
  Or.inl
    ⟨rfl,
     (registerDataFile_json_single_flight duckInFlight [false, false, true] rfl).1,
     ((registerDataFile_json_single_flight duckInFlight [false, false, true] rfl).2.2.1.2).resolve_right
       (by decide)⟩

theorem cumFrom_length {α : Type} (d : α → α → ℚ) (acc : ℚ) (prev : α)
    (l : List α) : (cumFrom d acc prev l).length = l.length := by
  induction l generalizing acc prev with
  | nil => rfl
  | cons q qs ih => simp [cumFrom, ih]

theorem cumDist_length {α : Type} (d : α → α → ℚ) (l : List α) :
    (cumDist d l).length = l.length := by
  cases l with
  | nil => rfl
  | cons p ps => simp [cumDist, cumFrom_length]

theorem cumFrom_chain {α : Type} (d : α → α → ℚ) (hd : ∀ a b, 0 ≤ d a b)
    (l : List α) : ∀ (acc : ℚ) (prev : α),
    List.Chain (· ≤ ·) acc (cumFrom d acc prev l) := by
  induction l with
  | nil =>
    intro acc prev
    exact List.Chain.nil
  | cons q qs ih =>
    intro acc prev
    exact List.Chain.cons (le_add_of_nonneg_right (hd prev q)) (ih _ q)

theorem cumDist_chain {α : Type} (d : α → α → ℚ) (hd : ∀ a b, 0 ≤ d a b)
    (l : List α) : List.Chain' (· ≤ ·) (cumDist d l) := by
  cases l with
  | nil => exact List.chain'_nil
  | cons p ps =>
    show List.Chain (· ≤ ·) 0 (cumFrom d 0 p ps)
    exact cumFrom_chain d hd ps 0 p

theorem interpolate_preserves_statics (bear : GeoPoint → GeoPoint → ℚ)
    (trip : DeckTrip) (t : ℚ) :
    (interpolate bear trip t).path = trip.path ∧
    (interpolate bear trip t).timestamps = trip.timestamps ∧
    (interpolate bear trip t).cumulativeDistances = trip.cumulativeDistances ∧
    (interpolate bear trip t).startTimeSeconds = trip.startTimeSeconds ∧
    (interpolate bear trip t).endTimeSeconds = trip.endTimeSeconds ∧
    (interpolate bear trip t).visibleStartSeconds = trip.visibleStartSeconds ∧
    (interpolate bear trip t).visibleEndSeconds = trip.visibleEndSeconds ∧
    (interpolate bear trip t).fadeInEndSeconds = trip.fadeInEndSeconds ∧
    (interpolate bear trip t).firstSegmentBearing = trip.firstSegmentBearing ∧
    (interpolate bear trip t).lastSegmentBearing = trip.lastSegmentBearing := by
  unfold interpolate
  split_ifs <;> simp

/-- C3: every trip accepted by the compiler satisfies
`visibleStartSeconds ≤ fadeInEndSeconds ≤ endTimeSeconds ≤
visibleEndSeconds` with `fadeInEndSeconds = startTimeSeconds`, its
`cumulativeDistances` is non-decreasing and parallel to `path` and
`timestamps` (assuming a non-negative fade duration, a non-negative point
distance, and `startedAt ≤ endedAt` as the raw-trip invariant requires),
and the per-frame interpolator never changes any of these static fields. -/
theorem compile_invariants (decode : String → Option (List GeoPoint))
    (d bear : GeoPoint → GeoPoint → ℚ) (w fade : ℚ) (trip : RawTrip)
    (ct : DeckTrip) (hd : ∀ a b, 0 ≤ d a b) (hfade : 0 ≤ fade)
    (hse : trip.startedAtMs ≤ trip.endedAtMs)
    (hc : compile decode d bear w fade trip = some ct) :
    (ct.visibleStartSeconds ≤ ct.fadeInEndSeconds ∧
     ct.fadeInEndSeconds ≤ ct.endTimeSeconds ∧
     ct.endTimeSeconds ≤ ct.visibleEndSeconds ∧
     ct.fadeInEndSeconds = ct.startTimeSeconds) ∧
    List.Chain' (· ≤ ·) ct.cumulativeDistances ∧
    ct.cumulativeDistances.length = ct.path.length ∧
    ct.timestamps.length = ct.path.length ∧
    (∀ t, (interpolate bear ct t).path = ct.path ∧
      (interpolate bear ct t).timestamps = ct.timestamps ∧
      (interpolate bear ct t).cumulativeDistances = ct.cumulativeDistances ∧
      (interpolate bear ct t).visibleStartSeconds = ct.visibleStartSeconds ∧
      (interpolate bear ct t).visibleEndSeconds = ct.visibleEndSeconds ∧
      (interpolate bear ct t).fadeInEndSeconds = ct.fadeInEndSeconds ∧
      (interpolate bear ct t).firstSegmentBearing = ct.firstSegmentBearing ∧
      (interpolate bear ct t).lastSegmentBearing = ct.lastSegmentBearing) := by
  unfold compile at hc
  cases hp : tripPath decode trip with
  | none =>
    rw [hp] at hc
    cases hc
  | some path =>
    rw [hp] at hc
    injection hc with hc
    subst hc
    have hstart : (trip.startedAtMs - w) / 1000 ≤ (trip.endedAtMs - w) / 1000 := by
      gcongr
    refine ⟨⟨?_, ?_, ?_, rfl⟩, ?_, ?_, ?_, ?_⟩
    · exact sub_le_self _ hfade
    · exact hstart
    · exact le_add_of_nonneg_right hfade
    · exact cumDist_chain d hd path
    · exact cumDist_length d path
    · show (List.map _ (cumDist _ (cumDist d path))).length = path.length
      rw [List.length_map, cumDist_length, cumDist_length]
    · intro t
      refine ⟨(interpolate_preserves_statics bear _ t).1,
        (interpolate_preserves_statics bear _ t).2.1,
        (interpolate_preserves_statics bear _ t).2.2.1,
        (interpolate_preserves_statics bear _ t).2.2.2.2.2.1,
        (interpolate_preserves_statics bear _ t).2.2.2.2.2.2.1,
        (interpolate_preserves_statics bear _ t).2.2.2.2.2.2.2.1,
        (interpolate_preserves_statics bear _ t).2.2.2.2.2.2.2.2.1,
        (interpolate_preserves_statics bear _ t).2.2.2.2.2.2.2.2.2⟩

/-- Executable stand-in for the external great-circle point distance: the
planar L1 distance.  Non-negativity is the only property the compiled-trip
invariants rely on. -/
def planarDistance (a b : GeoPoint) : ℚ := |b.1 - a.1| + |b.2 - a.2|

/-- Executable stand-in for the external segment-bearing computation (the
real bearing uses trigonometric functions unavailable over ℚ); bearing
values never influence visibility or phase selection. -/
def flatBearing (a b : GeoPoint) : ℚ := b.1 - a.1

/-- The raw trip of the phase scenario: `startTimeSeconds = 100`,
`endTimeSeconds = 160` relative to window start 0, no encoded route, end
coordinates present. -/
def scenarioRawTrip : RawTrip :=
  { id := "t"
    startStationId := "a"
    endStationId := "b"
    startedAtMs := 100000
    endedAtMs := 160000
    rideableType := "classic_bike"
    memberCasual := "member"
    startLat := 0
    startLng := 0
    endLat := some 4
    endLng := some 3
    routeGeometry := none
    routeDistance := none
    routeDuration := none }

/-- The compiled form of `scenarioRawTrip` under the spec-modelled
compiler with `fadeDurationSimSeconds = 5`: boundaries 95 ≤ 100 ≤ 160 ≤
165. -/
def scenarioCompiled : DeckTrip :=
  { id := "t"
    path := [(0, 0), (3, 4)]
    timestamps := [100, 160]
    bikeType := "classic_bike"
    startTimeSeconds := 100
    endTimeSeconds := 160
    visibleStartSeconds := 95
    visibleEndSeconds := 165
    cumulativeDistances := [0, 7]
    lastSegmentIndex := 0
    fadeInEndSeconds := 100
    firstSegmentBearing := 3
    lastSegmentBearing := 3
    currentPosition := (0, 0)
    currentBearing := 3
    currentPhase := .fadingIn
    currentPhaseProgress := 0
    isVisible := false
    isSelected := false }

theorem scenario_compile_eq :
    compile (fun _ => none) planarDistance flatBearing 0 5 scenarioRawTrip =
      some scenarioCompiled := by
  simp [compile, tripPath, straightPath, scenarioRawTrip, cumDist, cumFrom,
    planarDistance, easeWeight, EASE_DISTANCE_METERS, EASE_TIME_MULTIPLIER,
    firstSegBearing, lastSegBearing, flatBearing, scenarioCompiled,
    List.getLastD, List.getD]
  norm_num

theorem compile_invariants_witness :
    compile (fun _ => none) planarDistance flatBearing 0 5 scenarioRawTrip =
      some scenarioCompiled ∧
    (scenarioCompiled.visibleStartSeconds ≤ scenarioCompiled.fadeInEndSeconds ∧
     scenarioCompiled.fadeInEndSeconds ≤ scenarioCompiled.endTimeSeconds ∧
     scenarioCompiled.endTimeSeconds ≤ scenarioCompiled.visibleEndSeconds ∧
     scenarioCompiled.fadeInEndSeconds = scenarioCompiled.startTimeSeconds) ∧
    List.Chain' (· ≤ ·) scenarioCompiled.cumulativeDistances ∧
    scenarioCompiled.cumulativeDistances.length = scenarioCompiled.path.length ∧
    scenarioCompiled.timestamps.length = scenarioCompiled.path.length :=
  ⟨scenario_compile_eq,
   (compile_invariants (fun _ => none) planarDistance flatBearing 0 5
     scenarioRawTrip scenarioCompiled
     (fun a b => add_nonneg (abs_nonneg _) (abs_nonneg _))
     (by norm_num) (by norm_num [scenarioRawTrip]) scenario_compile_eq).1,
   (compile_invariants (fun _ => none) planarDistance flatBearing 0 5
     scenarioRawTrip scenarioCompiled
     (fun a b => add_nonneg (abs_nonneg _) (abs_nonneg _))
     (by norm_num) (by norm_num [scenarioRawTrip]) scenario_compile_eq).2.1,
   (compile_invariants (fun _ => none) planarDistance flatBearing 0 5
     scenarioRawTrip scenarioCompiled
     (fun a b => add_nonneg (abs_nonneg _) (abs_nonneg _))
     (by norm_num) (by norm_num [scenarioRawTrip]) scenario_compile_eq).2.2.1,
   (compile_invariants (fun _ => none) planarDistance flatBearing 0 5
     scenarioRawTrip scenarioCompiled
     (fun a b => add_nonneg (abs_nonneg _) (abs_nonneg _))
     (by norm_num) (by norm_num [scenarioRawTrip]) scenario_compile_eq).2.2.2.1⟩

/-- C4 counterexample: the compiler (per the spec, `visibleStartSeconds =
startTimeSeconds - fadeDurationSeconds` and `fadeInEndSeconds =
startTimeSeconds`) gives the scenario trip (start 100, end 160, fade 5)
`fadeInEndSeconds = 100`, so at `t = 102` the interpolator assigns phase
moving (`102 ≥ fadeInEndSeconds`), not fading-in as the claim's scenario
asserts. -/
theorem interpolate_scenario_counterexample :
    compile (fun _ => none) planarDistance flatBearing 0 5 scenarioRawTrip =
      some scenarioCompiled ∧
    scenarioCompiled.fadeInEndSeconds = 100 ∧
    (interpolate flatBearing scenarioCompiled 102).currentPhase = Phase.moving ∧
    (interpolate flatBearing scenarioCompiled 102).currentPhase ≠ Phase.fadingIn := by
  have hph : (interpolate flatBearing scenarioCompiled 102).currentPhase =
      Phase.moving := by rfl
  refine ⟨scenario_compile_eq, rfl, hph, ?_⟩
  rw [hph]
  decide

/-- C4 amended: for every compiled trip with ordered phase boundaries and
simulated time `t`, the interpolator sets `isVisible` to false (changing
nothing else, the cursor included) exactly when `t < visibleStartSeconds`
or `t > visibleEndSeconds`, and otherwise assigns fading-in on
`[visibleStartSeconds, fadeInEndSeconds)` (bearing held at the first
segment bearing), moving on `[fadeInEndSeconds, endTimeSeconds]`, and
fading-out on `(endTimeSeconds, visibleEndSeconds]`; the scenario trip
with start 100, end 160, fade 5 is invisible at t = 90, fading-in at
t = 97 with bearing equal to the first segment bearing, moving at t = 102
and t = 130 (102 already lies in the moving interval, since fade-in ends
at startTimeSeconds = 100), fading-out at t = 163, and invisible at
t = 166. -/
theorem interpolate_phase_classification (bear : GeoPoint → GeoPoint → ℚ)
    (trip : DeckTrip) (t : ℚ)
    (h1 : trip.visibleStartSeconds ≤ trip.fadeInEndSeconds)
    (h2 : trip.fadeInEndSeconds ≤ trip.endTimeSeconds)
    (h3 : trip.endTimeSeconds ≤ trip.visibleEndSeconds) :
    ((interpolate bear trip t).isVisible = false ↔
      (t < trip.visibleStartSeconds ∨ t > trip.visibleEndSeconds)) ∧
    ((t < trip.visibleStartSeconds ∨ t > trip.visibleEndSeconds) →
      interpolate bear trip t = { trip with isVisible := false }) ∧
    (trip.visibleStartSeconds ≤ t → t < trip.fadeInEndSeconds →
      (interpolate bear trip t).currentPhase = Phase.fadingIn ∧
      (interpolate bear trip t).currentBearing = trip.firstSegmentBearing) ∧
    (trip.fadeInEndSeconds ≤ t → t ≤ trip.endTimeSeconds →
      (interpolate bear trip t).currentPhase = Phase.moving) ∧
    (trip.endTimeSeconds < t → t ≤ trip.visibleEndSeconds →
      (interpolate bear trip t).currentPhase = Phase.fadingOut) ∧
    (interpolate flatBearing scenarioCompiled 90).isVisible = false ∧
    ((interpolate flatBearing scenarioCompiled 97).currentPhase = Phase.fadingIn ∧
     (interpolate flatBearing scenarioCompiled 97).currentBearing =
       scenarioCompiled.firstSegmentBearing) ∧
    (interpolate flatBearing scenarioCompiled 102).currentPhase = Phase.moving ∧
    (interpolate flatBearing scenarioCompiled 130).currentPhase = Phase.moving ∧
    (interpolate flatBearing scenarioCompiled 163).currentPhase = Phase.fadingOut ∧
    (interpolate flatBearing scenarioCompiled 166).isVisible = false := by
  refine ⟨?_, ?_, ?_, ?_, ?_, by rfl, ⟨by rfl, by rfl⟩, by rfl, by rfl, by rfl, by rfl⟩
  · unfold interpolate
    split_ifs with hout hfi hmv <;> simp [hout]
  · intro hout
    unfold interpolate
    rw [if_pos hout]
  · intro ha hb
    have hout : ¬ (t < trip.visibleStartSeconds ∨ t > trip.visibleEndSeconds) := by
      push_neg
      exact ⟨ha, le_trans (le_of_lt hb) (le_trans h2 h3)⟩
    unfold interpolate
    rw [if_neg hout, if_pos hb]
    exact ⟨rfl, rfl⟩
  · intro ha hb
    have hout : ¬ (t < trip.visibleStartSeconds ∨ t > trip.visibleEndSeconds) := by
      push_neg
      exact ⟨le_trans h1 ha, le_trans hb h3⟩
    unfold interpolate
    rw [if_neg hout, if_neg (not_lt.mpr ha), if_pos hb]
  · intro ha hb
    have hout : ¬ (t < trip.visibleStartSeconds ∨ t > trip.visibleEndSeconds) := by
      push_neg
      exact ⟨le_trans h1 (le_trans h2 (le_of_lt ha)), hb⟩
    unfold interpolate
    rw [if_neg hout, if_neg (not_lt.mpr (le_trans h2 (le_of_lt ha))),
      if_neg (not_le.mpr ha)]

theorem interpolate_phase_classification_witness :
    scenarioCompiled.visibleStartSeconds ≤ scenarioCompiled.fadeInEndSeconds ∧
    ((interpolate flatBearing scenarioCompiled 97).isVisible = false ↔
      ((97 : ℚ) < scenarioCompiled.visibleStartSeconds ∨
       (97 : ℚ) > scenarioCompiled.visibleEndSeconds)) ∧
    (interpolate flatBearing scenarioCompiled 102).currentPhase = Phase.moving :=
  ⟨by norm_num [scenarioCompiled],
   (interpolate_phase_classification flatBearing scenarioCompiled 97
     (by norm_num [scenarioCompiled]) (by norm_num [scenarioCompiled])
     (by norm_num [scenarioCompiled])).1,
   (interpolate_phase_classification flatBearing scenarioCompiled 97
     (by norm_num [scenarioCompiled]) (by norm_num [scenarioCompiled])
     (by norm_num [scenarioCompiled])).2.2.2.2.2.2.2.1⟩
